import Mathlib

/-!
Verification of the xiaozhi-esp32-server media pipeline against its
specification.  Each section shallowly embeds one part of the Python source
(`src/main/xiaozhi-server/...`) as executable Lean definitions and proves the
spec claims about it.  External libraries (the Opus codec, the Silero model,
aiortc, pydub) are modelled as opaque data: an "encoded frame" records exactly
the arguments handed to the encoder, a VAD probability is an arbitrary rational
supplied as a parameter, and so on.
-/

namespace Xiaozhi

/-! ### Audio codec: `core/providers/tts/base.py`, `TTSProviderBase.audio_to_opus_data`
(file branch, lines 91-147).  PCM bytes are modelled as `List Nat`
(each entry one byte), time as `ℚ`. -/

/-- Opus application profiles of `opuslib_next`. -/
inductive OpusApplication
  | voip
  | audio
  | restrictedLowdelay
deriving DecidableEq, Repr

/-- Arguments of `opuslib_next.Encoder(sample_rate, channels, application)`. -/
structure OpusEncoderConfig where
  sampleRate : Nat
  channels : Nat
  application : OpusApplication
deriving DecidableEq, Repr

/-- One call `encoder.encode(pcm, frame_size)`.  The encoder itself is an
external library, so an encoded frame is modelled by the exact data handed to
it: the encoder configuration, the `frame_size` argument and the PCM bytes. -/
structure OpusFrame where
  config : OpusEncoderConfig
  frameSize : Nat
  pcm : List Nat
deriving DecidableEq, Repr

/-- Zero-padding of a trailing chunk: `chunk += b'\x00' * padding_size`
(base.py lines 131-134), bringing every window to `frame_size * 2 = 640`
bytes. -/
def padWindow (chunk : List Nat) : List Nat :=
  chunk ++ List.replicate (640 - chunk.length) 0

/-- The loop `for i in range(0, len(raw_data), frame_size * 2)` of
`audio_to_opus_data` (base.py lines 126-142): split the raw PCM byte string
into successive 640-byte windows, zero-padding the trailing one. -/
def pcmWindows (raw : List Nat) : List (List Nat) :=
  if h : raw = [] then []
  else padWindow (raw.take 640) :: pcmWindows (raw.drop 640)
termination_by raw.length
decreasing_by
  have hpos : 0 < raw.length := List.length_pos.mpr h
  simp only [List.length_drop]
  omega

/-- `audio_to_opus_data` on the file path (no `_direct_opus_data` cached):
after pydub has normalised the file to 16 kHz mono s16le raw PCM, every
640-byte window is Opus-encoded with `frame_size = 320` by an encoder built as
`Encoder(16000, 1, APPLICATION_AUDIO)`, and the returned duration is
`len(audio) / 1000.0` seconds, where pydub's `len` is the audio length in
milliseconds (`raw.length / 32` for 16 kHz mono s16le). -/
def audio_to_opus_data (raw : List Nat) : List OpusFrame × ℚ :=
  ((pcmWindows raw).map fun w =>
      { config := ⟨16000, 1, OpusApplication.audio⟩, frameSize := 320, pcm := w },
   (raw.length : ℚ) / 32000)

theorem pcmWindows_nil : pcmWindows [] = [] := by
  rw [pcmWindows]
  simp

theorem pcmWindows_ne_nil {raw : List Nat} (h : raw ≠ []) :
    pcmWindows raw = padWindow (raw.take 640) :: pcmWindows (raw.drop 640) := by
  rw [pcmWindows]
  simp [h]

theorem pcmWindows_length (raw : List Nat) :
    (pcmWindows raw).length = (raw.length + 639) / 640 := by
  by_cases h : raw = []
  · subst h
    simp [pcmWindows_nil]
  · rw [pcmWindows_ne_nil h]
    have ih := pcmWindows_length (raw.drop 640)
    have hpos : 0 < raw.length := List.length_pos.mpr h
    simp only [List.length_cons, ih, List.length_drop]
    omega
termination_by raw.length
decreasing_by
  have hpos : 0 < raw.length := List.length_pos.mpr h
  simp only [List.length_drop]
  omega

theorem pcmWindows_flatten (raw : List Nat) :
    (pcmWindows raw).flatten = raw ++ List.replicate ((640 - raw.length % 640) % 640) 0 := by
  by_cases h : raw = []
  · subst h
    simp [pcmWindows_nil]
  · rw [pcmWindows_ne_nil h]
    have ih := pcmWindows_flatten (raw.drop 640)
    have hpos : 0 < raw.length := List.length_pos.mpr h
    rcases le_or_lt raw.length 640 with hle | hgt
    · have hdrop : raw.drop 640 = [] := by
        apply List.drop_eq_nil_of_le
        omega
      have htake : raw.take 640 = raw := List.take_of_length_le hle
      simp only [List.flatten_cons, hdrop, pcmWindows_nil, List.flatten_nil, List.append_nil]
      rw [padWindow, htake]
      have hrep : 640 - raw.length = (640 - raw.length % 640) % 640 := by omega
      rw [hrep]
    · have htl : (raw.take 640).length = 640 := by
        rw [List.length_take]
        omega
      have hpad : padWindow (raw.take 640) = raw.take 640 := by
        rw [padWindow, htl]
        simp
      simp only [List.flatten_cons, hpad, ih, List.length_drop]
      rw [← List.append_assoc, List.take_append_drop]
      have hmod : (640 - (raw.length - 640) % 640) % 640
          = (640 - raw.length % 640) % 640 := by omega
      rw [hmod]
termination_by raw.length
decreasing_by
  have hpos : 0 < raw.length := List.length_pos.mpr h
  simp only [List.length_drop]
  omega

theorem pcmWindows_window_length (raw : List Nat) :
    ∀ w ∈ pcmWindows raw, w.length = 640 := by
  by_cases h : raw = []
  · subst h
    simp [pcmWindows_nil]
  · rw [pcmWindows_ne_nil h]
    intro w hw
    rcases List.mem_cons.mp hw with hw | hw
    · subst hw
      have hlen : (raw.take 640).length ≤ 640 := by
        rw [List.length_take]
        omega
      rw [padWindow]
      simp only [List.length_append, List.length_replicate]
      omega
    · exact pcmWindows_window_length (raw.drop 640) w hw
termination_by raw.length
decreasing_by
  have hpos : 0 < raw.length := List.length_pos.mpr h
  simp only [List.length_drop]
  omega

/-- C3: for every PCM input of `L` bytes at 16 kHz mono s16le,
`audio_to_opus_data` produces exactly `⌈L / 640⌉` Opus frames; every frame is
an `encoder.encode` call with `frame_size = 320` (320 samples = 20 ms at
16 kHz) on a 640-byte window, by an encoder built with the Opus audio
application profile; the windows concatenate to the input followed by the
zero padding of the trailing window (empty exactly when `L` is a multiple of
640); and the returned duration is the audio length `L / 32000` seconds. -/
theorem audio_to_opus_data_spec (raw : List Nat) :
    (audio_to_opus_data raw).1.length = (raw.length + 639) / 640
    ∧ (∀ f ∈ (audio_to_opus_data raw).1,
        f.config = ⟨16000, 1, OpusApplication.audio⟩ ∧ f.frameSize = 320
          ∧ f.pcm.length = 640)
    ∧ ((audio_to_opus_data raw).1.map OpusFrame.pcm).flatten
        = raw ++ List.replicate ((640 - raw.length % 640) % 640) 0
    ∧ (audio_to_opus_data raw).2 = (raw.length : ℚ) / 32000 := by
  refine ⟨?_, ?_, ?_, rfl⟩
  · simp only [audio_to_opus_data, List.length_map]
    exact pcmWindows_length raw
  · intro f hf
    simp only [audio_to_opus_data, List.mem_map] at hf
    obtain ⟨w, hw, rfl⟩ := hf
    exact ⟨rfl, rfl, pcmWindows_window_length raw w hw⟩
  · simp only [audio_to_opus_data, List.map_map]
    have hmap : (OpusFrame.pcm ∘ fun w : List Nat =>
        ({ config := ⟨16000, 1, OpusApplication.audio⟩, frameSize := 320,
           pcm := w } : OpusFrame)) = id := by
      funext w
      rfl
    rw [hmap, List.map_id]
    exact pcmWindows_flatten raw

/-- Witness for C3 at a concrete 700-byte input: 700 bytes yield
`⌈700 / 640⌉ = 2` frames. -/
theorem audio_to_opus_data_spec_witness :
    (audio_to_opus_data (List.replicate 700 7)).1.length = 2 :=
  (audio_to_opus_data_spec (List.replicate 700 7)).1.trans
    (by norm_num [List.length_replicate])

/-! ### VAD gate: `core/providers/vad/silero.py`, `VADProvider.is_vad`.
The Silero model is external; it is a parameter `model` mapping the float32
samples and the sample-rate argument to a probability in `ℚ`.  Times are
milliseconds (`time.time() * 1000`) in `ℚ`. -/

/-- Per-session VAD state carried on the connection object. -/
structure VadConn where
  client_audio_buffer : List Nat
  client_have_voice : Bool
  client_have_voice_last_time : ℚ
  client_voice_stop : Bool
deriving DecidableEq, Repr

/-- `float(config.get("threshold", 0.5))` (silero.py line 24). -/
def vad_threshold_of_config (c : Option ℚ) : ℚ := c.getD (1/2)

/-- `int(config.get("min_silence_duration_ms", 1000))` (silero.py line 25). -/
def silence_threshold_ms_of_config (c : Option ℚ) : ℚ := c.getD 1000

/-- The window-extraction loop condition of `is_vad` (silero.py lines 53-56):
while at least `512 * 2 = 1024` bytes remain in `conn.client_audio_buffer`,
take the first 1024 bytes (512 samples) as one window.  Returns the extracted
windows and the residual buffer. -/
def vadWindows (buf : List Nat) : List (List Nat) × List Nat :=
  if h : 1024 ≤ buf.length then
    let rest := vadWindows (buf.drop 1024)
    (buf.take 1024 :: rest.1, rest.2)
  else ([], buf)
termination_by buf.length
decreasing_by
  simp only [List.length_drop]
  omega

/-- Little-endian signed 16-bit value of a byte pair, as
`np.frombuffer(chunk, dtype=np.int16)` reads it. -/
def int16OfBytes (lo hi : Nat) : ℤ :=
  if lo + 256 * hi < 32768 then (lo + 256 * hi : ℤ) else (lo + 256 * hi : ℤ) - 65536

/-- `np.frombuffer(chunk, dtype=np.int16)` on the byte window. -/
def int16Samples : List Nat → List ℤ
  | lo :: hi :: rest => int16OfBytes lo hi :: int16Samples rest
  | _ => []

/-- `audio_int16.astype(np.float32) / 32768.0` on one sample. -/
def toFloat32Sample (s : ℤ) : ℚ := (s : ℚ) / 32768

/-- The body of the window loop (silero.py lines 59-77): convert the 1024-byte
window to float32 samples, ask the model for a probability at 16000 Hz,
classify speech as `speech_prob >= vad_threshold`, then update the silence /
speech bookkeeping on the connection.  Returns the updated state and the
window's classification (the loop-local `client_have_voice`). -/
def vadWindowStep (threshold silence_ms : ℚ) (model : List ℚ → Nat → ℚ)
    (now_ms : ℚ) (s : VadConn) (w : List Nat) : VadConn × Bool :=
  let audio_float32 := (int16Samples w).map toFloat32Sample
  let speech_prob := model audio_float32 16000
  let speech : Bool := decide (threshold ≤ speech_prob)
  let s1 := if s.client_have_voice ∧ speech = false
                ∧ silence_ms ≤ now_ms - s.client_have_voice_last_time
            then { s with client_voice_stop := true } else s
  let s2 := if speech
            then { s1 with client_have_voice := true,
                           client_have_voice_last_time := now_ms }
            else s1
  (s2, speech)

/-- The window loop of `is_vad`: fold `vadWindowStep` over the extracted
windows; `now i` is the `time.time() * 1000` observed while handling the i-th
window; the returned `Bool` is the last window's classification (the
loop-local `client_have_voice`, initially `False`). -/
def vadLoop (threshold silence_ms : ℚ) (model : List ℚ → Nat → ℚ)
    (now : Nat → ℚ) : Nat → VadConn → Bool → List (List Nat) → VadConn × Bool
  | _, s, last, [] => (s, last)
  | i, s, last, w :: ws =>
      let r := vadWindowStep threshold silence_ms model (now i) s w
      vadLoop threshold silence_ms model now (i + 1) r.1 r.2 ws

/-- One call of `is_vad` on a decoded PCM frame: extend the buffer, consume
all complete 1024-byte windows, keep the residue. -/
def is_vad (threshold silence_ms : ℚ) (model : List ℚ → Nat → ℚ)
    (now : Nat → ℚ) (s : VadConn) (pcm_frame : List Nat) : VadConn × Bool :=
  let buf := s.client_audio_buffer ++ pcm_frame
  let wr := vadWindows buf
  let r := vadLoop threshold silence_ms model now 0
    { s with client_audio_buffer := wr.2 } false wr.1
  r

theorem vadWindows_of_lt {buf : List Nat} (h : buf.length < 1024) :
    vadWindows buf = ([], buf) := by
  rw [vadWindows]
  simp [Nat.not_le.mpr h]

theorem vadWindows_of_le {buf : List Nat} (h : 1024 ≤ buf.length) :
    vadWindows buf
      = (buf.take 1024 :: (vadWindows (buf.drop 1024)).1,
         (vadWindows (buf.drop 1024)).2) := by
  rw [vadWindows]
  simp [h]

theorem vadWindows_count (buf : List Nat) :
    (vadWindows buf).1.length = buf.length / 1024 := by
  rcases lt_or_le buf.length 1024 with h | h
  · rw [vadWindows_of_lt h]
    simp
    omega
  · rw [vadWindows_of_le h]
    have ih := vadWindows_count (buf.drop 1024)
    simp only [List.length_cons, ih, List.length_drop]
    omega
termination_by buf.length
decreasing_by
  simp only [List.length_drop]
  omega

theorem vadWindows_residue (buf : List Nat) :
    (vadWindows buf).2 = buf.drop (1024 * (buf.length / 1024)) := by
  rcases lt_or_le buf.length 1024 with h | h
  · rw [vadWindows_of_lt h]
    have : buf.length / 1024 = 0 := by omega
    simp [this]
  · rw [vadWindows_of_le h]
    have ih := vadWindows_residue (buf.drop 1024)
    rw [ih, List.drop_drop, List.length_drop]
    congr 1
    omega
termination_by buf.length
decreasing_by
  simp only [List.length_drop]
  omega

theorem vadWindows_window_size (buf : List Nat) :
    ∀ w ∈ (vadWindows buf).1, w.length = 1024 := by
  rcases lt_or_le buf.length 1024 with h | h
  · rw [vadWindows_of_lt h]
    simp
  · rw [vadWindows_of_le h]
    intro w hw
    rcases List.mem_cons.mp hw with hw | hw
    · subst hw
      rw [List.length_take]
      omega
    · exact vadWindows_window_size (buf.drop 1024) w hw
termination_by buf.length
decreasing_by
  simp only [List.length_drop]
  omega

theorem vadWindows_flatten (buf : List Nat) :
    (vadWindows buf).1.flatten ++ (vadWindows buf).2 = buf := by
  rcases lt_or_le buf.length 1024 with h | h
  · rw [vadWindows_of_lt h]
    simp
  · rw [vadWindows_of_le h]
    have ih := vadWindows_flatten (buf.drop 1024)
    simp only [List.flatten_cons, List.append_assoc, ih]
    exact List.take_append_drop 1024 buf
termination_by buf.length
decreasing_by
  simp only [List.length_drop]
  omega

theorem vadWindows_residue_lt (buf : List Nat) :
    (vadWindows buf).2.length < 1024 := by
  rcases lt_or_le buf.length 1024 with h | h
  · rw [vadWindows_of_lt h]
    exact h
  · rw [vadWindows_of_le h]
    exact vadWindows_residue_lt (buf.drop 1024)
termination_by buf.length
decreasing_by
  simp only [List.length_drop]
  omega

theorem int16OfBytes_bounds {lo hi : Nat} (hlo : lo < 256) (hhi : hi < 256) :
    -32768 ≤ int16OfBytes lo hi ∧ int16OfBytes lo hi ≤ 32767 := by
  unfold int16OfBytes
  split <;> constructor <;> omega

theorem toFloat32Sample_bounds {s : ℤ} (h1 : -32768 ≤ s) (h2 : s ≤ 32767) :
    -1 ≤ toFloat32Sample s ∧ toFloat32Sample s ≤ 1 := by
  unfold toFloat32Sample
  constructor
  · rw [le_div_iff₀ (by norm_num : (0:ℚ) < 32768)]
    have : (-32768 : ℚ) ≤ (s : ℚ) := by exact_mod_cast h1
    linarith
  · rw [div_le_iff₀ (by norm_num : (0:ℚ) < 32768)]
    have : (s : ℚ) ≤ 32767 := by exact_mod_cast h2
    linarith

theorem int16Samples_float_bounds : ∀ (w : List Nat), (∀ b ∈ w, b < 256) →
    ∀ x ∈ (int16Samples w).map toFloat32Sample, -1 ≤ x ∧ x ≤ 1
  | [], _ => by simp [int16Samples]
  | [_], _ => by simp [int16Samples]
  | lo :: hi :: rest, hb => by
      simp only [int16Samples, List.map_cons, List.mem_cons]
      rintro x (rfl | hx)
      · have hB := int16OfBytes_bounds (hb lo (by simp)) (hb hi (by simp))
        exact toFloat32Sample_bounds hB.1 hB.2
      · exact int16Samples_float_bounds rest
          (fun b hbm => hb b (by simp [hbm])) x hx

theorem vadWindowStep_buffer (t sil : ℚ) (m : List ℚ → Nat → ℚ) (now : ℚ)
    (s : VadConn) (w : List Nat) :
    (vadWindowStep t sil m now s w).1.client_audio_buffer
      = s.client_audio_buffer := by
  simp only [vadWindowStep]
  split <;> split <;> rfl

theorem vadLoop_buffer (t sil : ℚ) (m : List ℚ → Nat → ℚ) (now : Nat → ℚ) :
    ∀ (ws : List (List Nat)) (i : Nat) (s : VadConn) (last : Bool),
      (vadLoop t sil m now i s last ws).1.client_audio_buffer
        = s.client_audio_buffer
  | [], _, _, _ => rfl
  | w :: ws, i, s, last => by
      rw [vadLoop, vadLoop_buffer t sil m now ws]
      exact vadWindowStep_buffer t sil m (now i) s w

/-- C4: one `is_vad` call consumes the accumulated buffer in windows of
exactly 1024 bytes (512 samples) while at least that many remain — the window
count is `⌊len / 1024⌋`, the windows and the residue reassemble the buffer,
and the residue (shorter than 1024 bytes) is what remains on the connection —
each window is converted from int16 to float32 values in `[-1, 1]`, the model
is consulted at 16000 Hz, and a window is classified as speech exactly when
the returned probability is at least the threshold, which is the configured
value and defaults to 0.5. -/
theorem is_vad_window_spec (threshold silence_ms : ℚ)
    (model : List ℚ → Nat → ℚ) (now : Nat → ℚ) (s : VadConn)
    (pcm : List Nat) :
    ((vadWindows (s.client_audio_buffer ++ pcm)).1.length
        = (s.client_audio_buffer ++ pcm).length / 1024
      ∧ (∀ w ∈ (vadWindows (s.client_audio_buffer ++ pcm)).1, w.length = 1024)
      ∧ (vadWindows (s.client_audio_buffer ++ pcm)).1.flatten
            ++ (vadWindows (s.client_audio_buffer ++ pcm)).2
          = s.client_audio_buffer ++ pcm
      ∧ (vadWindows (s.client_audio_buffer ++ pcm)).2.length < 1024
      ∧ (is_vad threshold silence_ms model now s pcm).1.client_audio_buffer
          = (vadWindows (s.client_audio_buffer ++ pcm)).2)
    ∧ (∀ w ∈ (vadWindows (s.client_audio_buffer ++ pcm)).1,
        (∀ b ∈ w, b < 256) →
          ∀ x ∈ (int16Samples w).map toFloat32Sample, -1 ≤ x ∧ x ≤ 1)
    ∧ (∀ (now_ms : ℚ) (st : VadConn) (w : List Nat),
        (vadWindowStep threshold silence_ms model now_ms st w).2
          = decide (threshold
              ≤ model ((int16Samples w).map toFloat32Sample) 16000))
    ∧ vad_threshold_of_config none = 1/2
    ∧ (∀ q : ℚ, vad_threshold_of_config (some q) = q) := by
  refine ⟨⟨vadWindows_count _, vadWindows_window_size _, vadWindows_flatten _,
      vadWindows_residue_lt _, ?_⟩, ?_, ?_, rfl, fun q => rfl⟩
  · unfold is_vad
    rw [vadLoop_buffer]
  · intro w _ hb
    exact int16Samples_float_bounds w hb
  · intro now_ms st w
    rfl

/-- Witness for C4 on a concrete 1030-byte buffer: one 1024-byte window is
consumed and 6 bytes remain. -/
theorem is_vad_window_spec_witness :
    (vadWindows ((VadConn.mk (List.replicate 1030 0) false 0 false
          ).client_audio_buffer ++ [])).1.length
      = ((VadConn.mk (List.replicate 1030 0) false 0 false
          ).client_audio_buffer ++ []).length / 1024 :=
  (is_vad_window_spec (1/2) 1000 (fun _ _ => 1) (fun _ => 0)
    (VadConn.mk (List.replicate 1030 0) false 0 false) []).1.1

/-- Unfolded form of one `vadWindowStep`. -/
theorem vadWindowStep_eq (t sil : ℚ) (m : List ℚ → Nat → ℚ) (now : ℚ)
    (s : VadConn) (w : List Nat) :
    vadWindowStep t sil m now s w
      = ({ client_audio_buffer := s.client_audio_buffer,
           client_have_voice := s.client_have_voice
             || decide (t ≤ m ((int16Samples w).map toFloat32Sample) 16000),
           client_have_voice_last_time :=
             if t ≤ m ((int16Samples w).map toFloat32Sample) 16000 then now
             else s.client_have_voice_last_time,
           client_voice_stop := s.client_voice_stop
             || (s.client_have_voice
                 && !(decide (t ≤ m ((int16Samples w).map toFloat32Sample) 16000))
                 && decide (sil ≤ now - s.client_have_voice_last_time)) },
         decide (t ≤ m ((int16Samples w).map toFloat32Sample) 16000)) := by
  obtain ⟨buf, hv, lt, st⟩ := s
  simp only [vadWindowStep]
  cases hv <;>
    by_cases hsp : t ≤ m ((int16Samples w).map toFloat32Sample) 16000 <;>
      by_cases hsil : sil ≤ now - lt <;>
        simp [hsp, hsil]

/-- C5: the VAD gate sets the session's voice-stop flag at a window exactly
when the window is classified silence, speech was previously detected
(`client_have_voice`), and the elapsed time since `client_have_voice_last_time`
has reached the silence threshold — so a shorter silence never sets it — and
every speech-classified window updates `client_have_voice_last_time` to the
current time (a silence window leaves it unchanged); the silence threshold
defaults to 1000 ms. -/
theorem vad_speech_end_spec (threshold silence_ms : ℚ)
    (model : List ℚ → Nat → ℚ) (now_ms : ℚ) (s : VadConn) (w : List Nat) :
    ((vadWindowStep threshold silence_ms model now_ms s w).1.client_voice_stop
      = (s.client_voice_stop
         || (s.client_have_voice
             && !(vadWindowStep threshold silence_ms model now_ms s w).2
             && decide (silence_ms ≤ now_ms - s.client_have_voice_last_time))))
    ∧ ((vadWindowStep threshold silence_ms model now_ms s w).2 = true →
        (vadWindowStep threshold silence_ms model now_ms s w
          ).1.client_have_voice_last_time = now_ms
        ∧ (vadWindowStep threshold silence_ms model now_ms s w
          ).1.client_have_voice = true)
    ∧ ((vadWindowStep threshold silence_ms model now_ms s w).2 = false →
        (vadWindowStep threshold silence_ms model now_ms s w
          ).1.client_have_voice_last_time = s.client_have_voice_last_time)
    ∧ (s.client_voice_stop = false →
        now_ms - s.client_have_voice_last_time < silence_ms →
        (vadWindowStep threshold silence_ms model now_ms s w
          ).1.client_voice_stop = false)
    ∧ silence_threshold_ms_of_config none = 1000 := by
  rw [vadWindowStep_eq]
  refine ⟨rfl, ?_, ?_, ?_, rfl⟩
  · intro hsp
    rw [decide_eq_true_iff] at hsp
    simp [hsp]
  · intro hsp
    rw [decide_eq_false_iff_not] at hsp
    simp [hsp]
  · intro h1 h2
    have h3 := not_le.mpr h2
    simp [h1, h3]

/-- Witness for C5 at a concrete silence window 500 ms after the last speech,
with the default 1000 ms threshold: the stop flag is not raised. -/
theorem vad_speech_end_spec_witness :
    (vadWindowStep (1/2) 2000 (fun _ _ => 0) 1500
        (VadConn.mk [] true 0 false) []).1.client_voice_stop = false :=
  (vad_speech_end_spec (1/2) 2000 (fun _ _ => 0) 1500
    (VadConn.mk [] true 0 false) []).2.2.2.1 rfl (by norm_num)

/-! ### TTS synthesis retry: `core/providers/tts/base.py`,
`TTSProviderBase.to_tts` (lines 23-67).  The provider call `text_to_speak`
is external: one attempt is summarised by which of the branches of the loop
body it hits. -/

/-- Outcome of one `text_to_speak` attempt as the `to_tts` loop distinguishes
them: a `(opus_frames, duration)` tuple returned directly, the output file
found on disk, neither (a failed attempt, `max_repeat_time` is decremented),
or an exception escaping into the outer `except` clause. -/
inductive TtsAttempt
  | direct (frames : List (List Nat)) (duration : ℚ)
  | fileCreated
  | fail
  | exn
deriving DecidableEq

/-- What `to_tts` hands back on success: the temp file path, with the opus
data cached on the instance when the provider produced it in memory. -/
inductive TtsResult
  | fileResult
  | directResult (frames : List (List Nat)) (duration : ℚ)
deriving DecidableEq

/-- The `while max_repeat_time > 0` loop of `to_tts` plus the surrounding
`try`/`except`: `k` counts provider invocations made so far, the second
argument is the remaining `max_repeat_time`.  Returns the result (`none` for
the Python `None`) and the total number of provider invocations. -/
def to_ttsLoop (attempt : Nat → TtsAttempt) (k : Nat) :
    Nat → Option TtsResult × Nat
  | 0 => (none, k)
  | n + 1 =>
      match attempt k with
      | .direct f d => (some (.directResult f d), k + 1)
      | .fileCreated => (some .fileResult, k + 1)
      | .fail => to_ttsLoop attempt (k + 1) n
      | .exn => (none, k + 1)

/-- `to_tts` with `max_repeat_time = 5`. -/
def to_tts (attempt : Nat → TtsAttempt) : Option TtsResult × Nat :=
  to_ttsLoop attempt 0 5

theorem to_ttsLoop_calls_le (attempt : Nat → TtsAttempt) :
    ∀ (n k : Nat), (to_ttsLoop attempt k n).2 ≤ k + n
  | 0, k => le_of_eq rfl
  | n + 1, k => by
      have ih := to_ttsLoop_calls_le attempt n (k + 1)
      simp only [to_ttsLoop]
      cases hA : attempt k <;> dsimp only <;> omega

theorem to_ttsLoop_all_fail (attempt : Nat → TtsAttempt) :
    ∀ (n k : Nat), (∀ j, j < n → attempt (k + j) = .fail) →
      to_ttsLoop attempt k n = (none, k + n)
  | 0, k, _ => rfl
  | n + 1, k, h => by
      have h0 : attempt k = .fail := by
        have := h 0 (by omega)
        simpa using this
      simp only [to_ttsLoop, h0]
      have ih := to_ttsLoop_all_fail attempt n (k + 1)
        (fun j hj => by
          have := h (j + 1) (by omega)
          rw [← this]
          congr 1
          omega)
      rw [ih]
      congr 1
      omega

theorem to_ttsLoop_first_success (attempt : Nat → TtsAttempt) :
    ∀ (n k i : Nat), i < n → (∀ j, j < i → attempt (k + j) = .fail) →
      (attempt (k + i) = .fileCreated →
        to_ttsLoop attempt k n = (some .fileResult, k + i + 1))
      ∧ (∀ f d, attempt (k + i) = .direct f d →
        to_ttsLoop attempt k n = (some (.directResult f d), k + i + 1))
  | 0, _, i, hi, _ => absurd hi (Nat.not_lt_zero i)
  | n + 1, k, 0, _, _ => by
      constructor
      · intro hs
        simp only [to_ttsLoop]
        rw [show k + 0 = k by omega] at hs
        rw [hs]
      · intro f d hs
        simp only [to_ttsLoop]
        rw [show k + 0 = k by omega] at hs
        rw [hs]
  | n + 1, k, i + 1, hi, hfail => by
      have h0 : attempt k = .fail := by
        have := hfail 0 (by omega)
        simpa using this
      have ih := to_ttsLoop_first_success attempt n (k + 1) i (by omega)
        (fun j hj => by
          have := hfail (j + 1) (by omega)
          rw [← this]
          congr 1
          omega)
      simp only [to_ttsLoop, h0]
      have harg : k + 1 + i = k + (i + 1) := by omega
      rw [harg] at ih
      constructor
      · intro hs
        exact ih.1 hs
      · intro f d hs
        exact ih.2 f d hs

/-- C6: `to_tts` invokes the provider at most 5 times; when the first
successful attempt is attempt `i` (all earlier ones failed), it stops there
and returns the usable result, having made `i + 1` provider calls; and when
all 5 attempts fail it returns `none` — a dropped segment — rather than a
raised exception (an exception inside the attempt is caught and also yields
`none`). -/
theorem to_tts_retry_spec (attempt : Nat → TtsAttempt) :
    (to_tts attempt).2 ≤ 5
    ∧ ((∀ j, j < 5 → attempt j = .fail) → to_tts attempt = (none, 5))
    ∧ (∀ i, i < 5 → (∀ j, j < i → attempt j = .fail) →
        (attempt i = .fileCreated →
          to_tts attempt = (some .fileResult, i + 1))
        ∧ (∀ f d, attempt i = .direct f d →
          to_tts attempt = (some (.directResult f d), i + 1))) := by
  refine ⟨?_, ?_, ?_⟩
  · have := to_ttsLoop_calls_le attempt 5 0
    simpa [to_tts] using this
  · intro h
    have := to_ttsLoop_all_fail attempt 5 0 (fun j hj => by
      have := h j hj
      simpa using this)
    simpa [to_tts] using this
  · intro i hi hfail
    have := to_ttsLoop_first_success attempt 5 0 i hi (fun j hj => by
      have := hfail j hj
      simpa using this)
    simpa [to_tts] using this

/-- Witness for C6: a provider that succeeds immediately (file branch) yields
the file result after exactly one invocation. -/
theorem to_tts_retry_spec_witness :
    to_tts (fun _ => TtsAttempt.fileCreated)
      = (some TtsResult.fileResult, 0 + 1) :=
  ((to_tts_retry_spec (fun _ => TtsAttempt.fileCreated)).2.2 0 (by omega)
    (fun j hj => absurd hj (Nat.not_lt_zero j))).1 rfl

/-! ### Role store: `role/role_storage.py` (`RoleStorage.delete_role`,
`_save_roles`) and `role/role_api.py` (HTTP `DELETE /api/roles/<role_id>`).
The in-memory `self.roles` dict is an association list; the JSON file
`data/roles.json` is the `persisted` field. -/

/-- A role object as stored in `data/roles.json`. -/
structure Role where
  name : String
  description : String
  prompt : String
  voice : String
  is_default : Bool
deriving DecidableEq, Repr

/-- The `RoleStorage` singleton: the in-memory `roles` dict, the
`default_role_id`, and the persisted file contents. -/
structure RoleStorage where
  roles : List (String × Role)
  default_role_id : Option String
  persisted : List (String × Role)
deriving DecidableEq, Repr

/-- `_save_roles` (role_storage.py lines 112-127): when a default role id is
set, refresh every role's `is_default` flag, then dump the roles dict to the
JSON file. -/
def _save_roles (s : RoleStorage) : RoleStorage :=
  let roles' := match s.default_role_id with
    | some d => s.roles.map fun p => (p.1, { p.2 with is_default := p.1 == d })
    | none => s.roles
  { s with roles := roles', persisted := roles' }

/-- `delete_role` (role_storage.py lines 165-176): refuse when the id is
absent or is the current default; otherwise remove the entry, save, and
report success. -/
def delete_role (s : RoleStorage) (role_id : String) : RoleStorage × Bool :=
  if (s.roles.lookup role_id).isNone then (s, false)
  else if s.default_role_id = some role_id then (s, false)
  else (_save_roles { s with roles := s.roles.filter fun p => p.1 ≠ role_id },
        true)

/-- The HTTP DELETE handler (role_api.py lines 55-61): status 400 when
`delete_role` reports failure, otherwise a success response (status 200). -/
def delete_role_api (s : RoleStorage) (role_id : String) : RoleStorage × Nat :=
  let r := delete_role s role_id
  (r.1, if r.2 then 200 else 400)

theorem lookup_eq_none_of_keys {α : Type} [DecidableEq α] {β : Type}
    (k : α) : ∀ (l : List (α × β)), (∀ p ∈ l, p.1 ≠ k) → l.lookup k = none
  | [], _ => rfl
  | (a, b) :: rest, h => by
      have ha : a ≠ k := h (a, b) (by simp)
      have hbeq : (k == a) = false := by
        rw [beq_eq_false_iff_ne]
        exact fun hc => ha hc.symm
      simp only [List.lookup, hbeq]
      exact lookup_eq_none_of_keys k rest fun p hp => h p (by simp [hp])

/-- C10: `delete_role` returns `False` and leaves both the in-memory roles
map and the persisted file untouched when the id is absent from the store or
is the current default (and the HTTP DELETE then answers 400); otherwise it
removes exactly that role — the surviving entries are the other entries, with
`is_default` flags refreshed by the save — persists the store, and returns
`True` (HTTP 200). -/
theorem delete_role_spec (s : RoleStorage) (role_id : String) :
    ((s.roles.lookup role_id = none ∨ s.default_role_id = some role_id) →
      delete_role s role_id = (s, false)
      ∧ delete_role_api s role_id = (s, 400))
    ∧ ((s.roles.lookup role_id).isSome → s.default_role_id ≠ some role_id →
      (delete_role s role_id).2 = true
      ∧ (delete_role s role_id).1.roles.lookup role_id = none
      ∧ (delete_role s role_id).1.roles
          = (_save_roles
              { s with roles := s.roles.filter fun p => p.1 ≠ role_id }).roles
      ∧ (delete_role s role_id).1.persisted = (delete_role s role_id).1.roles
      ∧ (delete_role_api s role_id).2 = 200) := by
  constructor
  · intro h
    rcases h with h | h
    · have hnone : (s.roles.lookup role_id).isNone := by
        rw [h]
        rfl
      constructor
      · simp [delete_role, hnone]
      · simp [delete_role_api, delete_role, hnone]
    · by_cases hnone : (s.roles.lookup role_id).isNone
      · exact ⟨by simp [delete_role, hnone], by simp [delete_role_api, delete_role, hnone]⟩
      · exact ⟨by simp [delete_role, hnone, h], by simp [delete_role_api, delete_role, hnone, h]⟩
  · intro hsome hdef
    obtain ⟨r, hr⟩ := Option.isSome_iff_exists.mp hsome
    have hfilter : ∀ p ∈ s.roles.filter (fun p => p.1 ≠ role_id),
        p.1 ≠ role_id := by
      intro p hp
      have := List.of_mem_filter hp
      simpa using this
    have hdel : delete_role s role_id
        = (_save_roles { s with roles := s.roles.filter fun p => p.1 ≠ role_id },
           true) := by
      unfold delete_role
      rw [hr]
      simp [hdef]
    refine ⟨by rw [hdel], ?_, by rw [hdel], by rw [hdel]; rfl,
      by simp [delete_role_api, hdel]⟩
    rw [hdel]
    unfold _save_roles
    cases hd : s.default_role_id with
    | none =>
        exact lookup_eq_none_of_keys role_id _ hfilter
    | some d =>
        dsimp only
        apply lookup_eq_none_of_keys
        intro p hp
        simp only [List.mem_map] at hp
        obtain ⟨q, hq, rfl⟩ := hp
        exact hfilter q hq

/-- Witness for C10: deleting a non-default existing role on a concrete
two-role store succeeds. -/
theorem delete_role_spec_witness :
    (delete_role
      (RoleStorage.mk
        [("default", Role.mk "默认角色" "d" "p" "v" true),
         ("english_teacher", Role.mk "英语老师" "d" "p" "v" false)]
        (some "default")
        [("default", Role.mk "默认角色" "d" "p" "v" true),
         ("english_teacher", Role.mk "英语老师" "d" "p" "v" false)])
      "english_teacher").2 = true :=
  ((delete_role_spec _ "english_teacher").2 (by decide) (by decide)).1

/-! ### Play-out pacer: `core/handle/sendAudioHandle.py`, `sendAudio`
(lines 32-78).  Times are seconds in `ℚ`; `now j` is the
`time.perf_counter()` observed in loop iteration `j`, `abort j` the value of
`conn.client_abort` at iteration `j`'s check.  Frames are identified by their
index in `audios`. -/

/-- Observable actions of one `sendAudio` call: a frame send over the
websocket or an `asyncio.sleep`. -/
inductive PacerEvent
  | send (i : Nat)
  | sleep (d : ℚ)
deriving DecidableEq, Repr

/-- The delay cap (sendAudioHandle.py lines 60-62): a computed delay larger
than 0.1 s is clamped to 0.1 s. -/
def capDelay (d : ℚ) : ℚ := if d > 1/10 then 1/10 else d

/-- The `for i, opus_packet in enumerate(audios[pre_buffer:])` loop
(lines 50-73): `j` is the enumeration index, the second argument the number
of remaining frames.  Each iteration first checks `conn.client_abort` and
returns on true; otherwise it computes
`delay = expected_time - current_time` with
`expected_time = start_time + play_position / 1000` and
`play_position = (pre_buffer + j) * 20` ms, caps it, sleeps when positive,
and sends frame `pre_buffer + j`. -/
def sendAudioLoop (t0 : ℚ) (now : Nat → ℚ) (abort : Nat → Bool)
    (preBuf : Nat) : Nat → Nat → List PacerEvent
  | _, 0 => []
  | j, rem + 1 =>
      if abort j then []
      else
        (if capDelay (t0 + ((preBuf + j : Nat) * 20 : ℚ) / 1000 - now j) > 0
         then [PacerEvent.sleep
                (capDelay (t0 + ((preBuf + j : Nat) * 20 : ℚ) / 1000 - now j))]
         else [])
          ++ PacerEvent.send (preBuf + j)
            :: sendAudioLoop t0 now abort preBuf (j + 1) rem

/-- `sendAudio(conn, audios)` with `n = len(audios)`: send the first
`pre_buffer = min(5, n)` frames back-to-back with no sleep and no abort check
(lines 44-47), then run the paced loop on the rest. -/
def sendAudio (t0 : ℚ) (now : Nat → ℚ) (abort : Nat → Bool) (n : Nat) :
    List PacerEvent :=
  (List.range (min 5 n)).map PacerEvent.send
    ++ sendAudioLoop t0 now abort (min 5 n) 0 (n - min 5 n)

theorem capDelay_eq_min (d : ℚ) : capDelay d = min d (1/10) := by
  unfold capDelay
  split
  · rw [min_eq_right]
    linarith
  · rw [min_eq_left]
    linarith

theorem capDelay_le (d : ℚ) : capDelay d ≤ 1/10 ∨ capDelay d = d := by
  unfold capDelay
  split
  · exact Or.inl le_rfl
  · exact Or.inr rfl

theorem sendAudioLoop_no_abort (t0 : ℚ) (now : Nat → ℚ) (preBuf : Nat) :
    ∀ (rem j : Nat),
      sendAudioLoop t0 now (fun _ => false) preBuf j rem
        = (List.range rem).flatMap fun k =>
            (if 0 < min (t0 + ((preBuf + (j + k) : Nat) * 20 : ℚ) / 1000
                          - now (j + k)) (1/10)
             then [PacerEvent.sleep
                    (min (t0 + ((preBuf + (j + k) : Nat) * 20 : ℚ) / 1000
                          - now (j + k)) (1/10))]
             else [])
            ++ [PacerEvent.send (preBuf + (j + k))]
  | 0, j => by simp [sendAudioLoop]
  | rem + 1, j => by
      rw [sendAudioLoop]
      rw [if_neg (by simp : ¬(false = true))]
      rw [sendAudioLoop_no_abort t0 now preBuf rem (j + 1)]
      rw [List.range_succ_eq_map, List.flatMap_cons, List.flatMap_map]
      simp only [capDelay_eq_min, Nat.add_zero, List.singleton_append,
        List.append_assoc, Nat.succ_eq_add_one, ← Nat.add_assoc,
        Nat.add_right_comm]

theorem sendAudioLoop_sleep_le (t0 : ℚ) (now : Nat → ℚ) (abort : Nat → Bool)
    (preBuf : Nat) :
    ∀ (rem j : Nat) (d : ℚ),
      PacerEvent.sleep d ∈ sendAudioLoop t0 now abort preBuf j rem →
        d ≤ 1/10
  | 0, _, _, h => by simp [sendAudioLoop] at h
  | rem + 1, j, d, h => by
      rw [sendAudioLoop] at h
      by_cases hab : abort j
      · rw [if_pos hab] at h
        simp at h
      · rw [if_neg hab] at h
        rcases List.mem_append.mp h with h | h
        · split at h
          · simp only [List.mem_singleton] at h
            cases h
            rw [capDelay_eq_min]
            exact min_le_right _ _
          · simp at h
        · rcases List.mem_cons.mp h with h | h
          · cases h
          · exact sendAudioLoop_sleep_le t0 now abort preBuf rem (j + 1) d h

/-- C7: with no barge-in, `sendAudio` on a segment of `n` frames first sends
the `min(5, n)` pre-buffer frames back-to-back (no sleep among them), and then
pacing each remaining frame `i = min 5 n + k` consists of sleeping
`min (t0 + i * 20ms - now) 100ms` when that is positive (nothing otherwise)
followed by the send — i.e. sleeping until `t0 + i * 20 ms` on the
per-segment clock, with every sleep capped at 100 ms. -/
theorem sendAudio_pacing_spec (t0 : ℚ) (now : Nat → ℚ) (n : Nat) :
    (sendAudio t0 now (fun _ => false) n).take (min 5 n)
        = (List.range (min 5 n)).map PacerEvent.send
    ∧ sendAudio t0 now (fun _ => false) n
        = (List.range (min 5 n)).map PacerEvent.send
          ++ ((List.range (n - min 5 n)).flatMap fun k =>
              (if 0 < min (t0 + ((min 5 n + k : Nat) * 20 : ℚ) / 1000 - now k)
                      (1/10)
               then [PacerEvent.sleep
                      (min (t0 + ((min 5 n + k : Nat) * 20 : ℚ) / 1000 - now k)
                        (1/10))]
               else [])
              ++ [PacerEvent.send (min 5 n + k)])
    ∧ (∀ d : ℚ, PacerEvent.sleep d ∈ sendAudio t0 now (fun _ => false) n →
        d ≤ 1/10) := by
  refine ⟨?_, ?_, ?_⟩
  · unfold sendAudio
    rw [List.take_append_of_le_length (by simp)]
    rw [List.take_of_length_le (by simp)]
  · unfold sendAudio
    rw [sendAudioLoop_no_abort]
    simp only [Nat.zero_add]
  · intro d hd
    unfold sendAudio at hd
    rcases List.mem_append.mp hd with h | h
    · simp only [List.mem_map] at h
      obtain ⟨i, _, hcontra⟩ := h
      cases hcontra
    · exact sendAudioLoop_sleep_le t0 now (fun _ => false) (min 5 n) _ 0 d h

/-- Witness for C7 at `t0 = 0`, constant clock, a 7-frame segment. -/
theorem sendAudio_pacing_spec_witness :
    (sendAudio 0 (fun _ => 0) (fun _ => false) 7).take (min 5 7)
      = (List.range (min 5 7)).map PacerEvent.send :=
  (sendAudio_pacing_spec 0 (fun _ => 0) 7).1

/-! ### Barge-in: the abort check of `sendAudio` (sendAudioHandle.py lines
50-53), `send_tts_message` (lines 81-101), and the parts of the abort path
whose code is not under `src/` (the connection class's `clearSpeakStatus` and
`core/handle/abortHandle.py`), modelled from the spec. -/

theorem sendAudioLoop_send_mem (t0 : ℚ) (now : Nat → ℚ) (abort : Nat → Bool)
    (preBuf : Nat) :
    ∀ (rem j i : Nat),
      PacerEvent.send i ∈ sendAudioLoop t0 now abort preBuf j rem →
        ∃ k, j ≤ k ∧ i = preBuf + k ∧ abort k = false
  | 0, j, i, h => by simp [sendAudioLoop] at h
  | rem + 1, j, i, h => by
      rw [sendAudioLoop] at h
      by_cases hab : abort j
      · rw [if_pos hab] at h
        simp at h
      · rw [if_neg hab] at h
        rcases List.mem_append.mp h with h | h
        · split at h <;> simp at h
        · rcases List.mem_cons.mp h with h | h
          · injection h with hi
            exact ⟨j, le_rfl, hi, by simpa using hab⟩
          · obtain ⟨k, hk1, hk2, hk3⟩ :=
              sendAudioLoop_send_mem t0 now abort preBuf rem (j + 1) i h
            exact ⟨k, by omega, hk2, hk3⟩

/-- Session fields of the connection object touched by the barge-in path
(`conn.client_abort`, the TTS segment indices, and the flags read by
`sendAudioMessage`). -/
structure SpeakSession where
  client_abort : Bool
  tts_first_text_index : Nat
  tts_last_text_index : Nat
  llm_finish_task : Bool
  close_after_chat : Bool
deriving DecidableEq, Repr

/-- Outbound control messages and pipeline actions relevant to the claims, as
built in `sendAudioHandle.py` / `textHandle.py`. -/
inductive OutEvent
  | ttsMsg (state : String) (text : Option String)
  | sttMsg (text : String)
  | llmEmotionMsg (text emotion : String)
  | notifyAudio
  | startChat (text : String)
deriving DecidableEq, Repr

/-- Modelled from the spec: `conn.clearSpeakStatus()` is defined on the
connection class, which is not under `src/`; per the data-model invariant
"on stop transition, both indices reset to 0". -/
def clearSpeakStatus (s : SpeakSession) : SpeakSession :=
  { s with tts_first_text_index := 0, tts_last_text_index := 0 }

/-- `send_tts_message` (sendAudioHandle.py lines 81-101): build
`{"type": "tts", "state": state, "session_id": ...}` with optional text; on
state `"stop"`, first play the notify voice when configured and clear the
speaking state; finally send the message. -/
def send_tts_message (notify : Bool) (s : SpeakSession) (state : String)
    (text : Option String) : SpeakSession × List OutEvent :=
  if state = "stop" then
    (clearSpeakStatus s,
     (if notify then [OutEvent.notifyAudio] else [])
       ++ [OutEvent.ttsMsg state text])
  else (s, [OutEvent.ttsMsg state text])

/-- Modelled from the spec: `handleAbortMessage` (`core/handle/abortHandle.py`,
dispatched from textHandle.py line 26 but not itself under `src/`): on an
`abort` control message, set the session's `client_abort` flag and "emit
`tts stop`, reset `tts_first_index/tts_last_index`, return session to Idle" —
the emission goes through `send_tts_message`, whose stop branch performs the
reset. -/
def handleAbortMessage (notify : Bool) (s : SpeakSession) :
    SpeakSession × List OutEvent :=
  send_tts_message notify { s with client_abort := true } "stop" none

/-- Modelled from the spec: the play-out consumer loop that feeds `sendAudio`
one queued segment at a time lives in the connection class, not under `src/`;
per the spec it must "stop immediately, drain the remaining frames of the
segment and any queued segments" once `client_abort` is true.  `paceOne` is
the event list a segment would produce if paced. -/
def paceSegmentsLoop (paceOne : Nat → List PacerEvent) (client_abort : Bool) :
    List Nat → List PacerEvent
  | [] => []
  | seg :: rest =>
      if client_abort then paceSegmentsLoop paceOne client_abort rest
      else paceOne seg ++ paceSegmentsLoop paceOne client_abort rest

theorem paceSegmentsLoop_abort (paceOne : Nat → List PacerEvent) :
    ∀ segs : List Nat, paceSegmentsLoop paceOne true segs = []
  | [] => rfl
  | _ :: rest => by
      rw [paceSegmentsLoop, if_pos rfl]
      exact paceSegmentsLoop_abort paceOne rest

/-- C1: barge-in.  Once `client_abort` is true from between-frame check `j0`
on (and stays true), (a) `sendAudio` sends no frame whose index is at or past
the frame guarded by that check — every frame it sends is either a pre-buffer
frame or a paced frame whose own check still saw the flag false; (b) the
spec-modelled consumer drains every queued segment without an event; and (c)
the abort handler delivers a `tts` message with state `"stop"` and leaves the
session with `client_abort` set and both `tts_first_text_index` and
`tts_last_text_index` reset to 0. -/
theorem barge_in_spec (t0 : ℚ) (now : Nat → ℚ) (abort : Nat → Bool)
    (n j0 : Nat) (hmono : ∀ k, j0 ≤ k → abort k = true)
    (paceOne : Nat → List PacerEvent) (segs : List Nat) (notify : Bool)
    (s : SpeakSession) :
    (∀ i, PacerEvent.send i ∈ sendAudio t0 now abort n →
      i < min 5 n + j0 ∨ i < min 5 n)
    ∧ paceSegmentsLoop paceOne true segs = []
    ∧ OutEvent.ttsMsg "stop" none ∈ (handleAbortMessage notify s).2
    ∧ (handleAbortMessage notify s).1.client_abort = true
    ∧ (handleAbortMessage notify s).1.tts_first_text_index = 0
    ∧ (handleAbortMessage notify s).1.tts_last_text_index = 0 := by
  refine ⟨?_, paceSegmentsLoop_abort paceOne segs, ?_, rfl, rfl, rfl⟩
  · intro i hi
    unfold sendAudio at hi
    rcases List.mem_append.mp hi with h | h
    · right
      simp only [List.mem_map, List.mem_range] at h
      obtain ⟨k, hk, hek⟩ := h
      injection hek with he
      omega
    · left
      obtain ⟨k, _, rfl, hkf⟩ :=
        sendAudioLoop_send_mem t0 now abort (min 5 n) (n - min 5 n) 0 i h
      have : k < j0 := by
        by_contra hc
        have := hmono k (by omega)
        rw [this] at hkf
        cases hkf
      omega
  · unfold handleAbortMessage send_tts_message
    rw [if_pos rfl]
    simp

/-- Witness for C1: with `client_abort` true from check 2 on, a 9-frame
segment loses every frame past index `min 5 9 + 2 = 7`, and the abort handler
resets the first index on a concrete session. -/
theorem barge_in_spec_witness :
    (handleAbortMessage false (SpeakSession.mk false 1 3 true false)
      ).1.tts_first_text_index = 0 :=
  (barge_in_spec 0 (fun _ => 0) (fun k => decide (2 ≤ k)) 9 2
    (fun k hk => decide_eq_true hk) (fun _ => []) [4, 6] false
    (SpeakSession.mk false 1 3 true false)).2.2.2.2.1

/-! ### WebRTC ASR dispatch trigger: `webrtc/modules/audio_frame_handler.py`,
`AudioFrameHandler.process_audio_frame` (lines 329-367 plus the state reset at
lines 469-472).  The flags live on the per-client `WebRTCConnection`;
`asr_audio` is summarised by its length. -/

/-- The connection flags read and written by the dispatch-trigger logic, and
the number of chunks currently buffered in `conn.asr_audio`. -/
structure FrameState where
  asr_audio : Nat
  client_have_voice : Bool
  client_voice_stop : Bool
  client_voice_stop_requested : Bool
deriving DecidableEq, Repr

/-- Steps 5-8 of `process_audio_frame` after the chunk append: (5) at ≥ 15
buffered chunks and a packet counter divisible by 30, set
`client_have_voice` and `client_voice_stop` (lines 332-339); (6) honour the
global Push-to-Talk stop flag (lines 341-355); (7) compute
`condition1 = client_voice_stop ∧ len ≥ 15` and
`condition2 = client_voice_stop_requested ∧ len > 0` (lines 357-360);
(8) on either, dispatch ASR, then clear the buffer and reset the VAD flags
(lines 362-367, 469-472).  Returns the new state and whether ASR was
dispatched. -/
def processTrigger (counter : Nat) (globalStop : Bool) (s : FrameState) :
    FrameState × Bool :=
  let s1 := if 15 ≤ s.asr_audio ∧ counter % 30 = 0
            then { s with client_have_voice := true, client_voice_stop := true }
            else s
  let s2 := if globalStop
            then { s1 with client_voice_stop := true,
                           client_voice_stop_requested := true }
            else s1
  if (s2.client_voice_stop ∧ 15 ≤ s2.asr_audio)
      ∨ (s2.client_voice_stop_requested ∧ 0 < s2.asr_audio)
  then (⟨0, false, false, false⟩, true)
  else (s2, false)

/-- One frame through `process_audio_frame`: the chunk is appended to
`conn.asr_audio` (lines 260-291), then the trigger logic runs. -/
def process_audio_frame_step (counter : Nat) (globalStop : Bool)
    (s : FrameState) : FrameState × Bool :=
  processTrigger counter globalStop { s with asr_audio := s.asr_audio + 1 }

/-- A run of frames: `counters` are the per-client packet-counter values of
the successive frames, `globalStop c` the Push-to-Talk global flag observed
at counter `c`.  Returns the final state and the dispatch flag of each
frame. -/
def runFrames (globalStop : Nat → Bool) :
    List Nat → FrameState → FrameState × List Bool
  | [], s => (s, [])
  | c :: cs, s =>
      let r := process_audio_frame_step c (globalStop c) s
      let rest := runFrames globalStop cs r.1
      (rest.1, r.2 :: rest.2)

/-- C2 counterexample: the claim says a dispatch happens only on a speech-end
event, an explicit client stop, or a 60-second buffer cap, and that no
chunk-count threshold triggers one.  But feeding 30 frames from a fresh state
— no VAD speech-end ever sets `client_voice_stop`, no Push-to-Talk stop, far
below 60 s of audio — produces a dispatch at the 30th frame, purely because
15 chunks had accumulated and the packet counter hit a multiple of 30
(audio_frame_handler.py lines 332-339 set the flags, line 359 fires). -/
theorem asr_dispatch_counterexample :
    true ∈ (runFrames (fun _ => false) ((List.range 30).map (· + 1))
              ⟨0, false, false, false⟩).2
    ∧ (runFrames (fun _ => false) ((List.range 29).map (· + 1))
              ⟨0, false, false, false⟩).2.all (· = false) = true := by
  decide

/-- C2 (amended): in the WebRTC audio-frame handler, an ASR dispatch fires at
a frame exactly when, after the chunk append, either the voice-stop flag
holds — whether set earlier (e.g. by VAD), set by this very step's 15-chunk /
counter-multiple-of-30 heuristic, or set by a global Push-to-Talk stop — and
at least 15 chunks are buffered, or a Push-to-Talk stop was requested and at
least one chunk is buffered.  In particular the buffered-chunk count together
with the packet counter triggers a dispatch by itself, and no 60-second cap
exists in this handler. -/
theorem asr_dispatch_trigger_spec (counter : Nat) (globalStop : Bool)
    (s : FrameState) :
    (process_audio_frame_step counter globalStop s).2 = true ↔
      (((s.client_voice_stop
          ∨ (15 ≤ s.asr_audio + 1 ∧ counter % 30 = 0)
          ∨ globalStop = true)
        ∧ 15 ≤ s.asr_audio + 1)
       ∨ ((s.client_voice_stop_requested ∨ globalStop = true)
          ∧ 0 < s.asr_audio + 1)) := by
  obtain ⟨len, hv, vs, req⟩ := s
  unfold process_audio_frame_step processTrigger
  dsimp only
  cases vs <;> cases req <;> cases globalStop <;>
    by_cases hA : 15 ≤ len + 1 <;>
      by_cases hB : counter % 30 = 0 <;>
        simp_all <;>
          first
            | omega
            | (split_ifs <;> simp_all)

/-! ### Wakeword detect: `core/handle/textHandle.py` lines 111-130 together
with `send_stt_message` (sendAudioHandle.py lines 104-121).  The text
normalisers `remove_punctuation_and_length` and
`get_string_no_punctuation_or_emoji` live in `core/utils/util.py` (not under
`src/`) and are abstract parameters `cleanDetect` / `cleanStt`;
`startToChat` (the dialogue-engine entry, `receiveAudioHandle.py`, not under
`src/`) is the abstract `startChat` action. -/

/-- Configuration read by the detect branch: the `wakeup_words` list and
`config.get("enable_greeting", True)`. -/
structure DetectConfig where
  wakeup_words : List String
  enable_greeting : Bool
deriving DecidableEq, Repr

/-- `config.get("enable_greeting", True)` (textHandle.py line 122). -/
def enable_greeting_of_config (c : Option Bool) : Bool := c.getD true

/-- `send_stt_message` (sendAudioHandle.py lines 104-121): send the `stt`
message carrying the punctuation/emoji-stripped text, the canned `llm`
emotion message, then `tts start` via `send_tts_message`. -/
def send_stt_message (cleanStt : String → String) (text : String) :
    List OutEvent :=
  [OutEvent.sttMsg (cleanStt text), OutEvent.llmEmotionMsg "😊" "happy",
   OutEvent.ttsMsg "start" none]

/-- The `state == "detect"` branch of `handleTextMessage` for a message
carrying `text` (textHandle.py lines 111-130): normalise the text, test
membership in the configured wakeword list; when it is a wakeword and
greeting replies are disabled, answer with `send_stt_message` followed by
`tts stop`, otherwise hand the text to `startToChat`. -/
def handleListenDetect (cleanDetect cleanStt : String → String)
    (notify : Bool) (s : SpeakSession) (cfg : DetectConfig) (text : String) :
    List OutEvent :=
  let t := cleanDetect text
  if t ∈ cfg.wakeup_words ∧ cfg.enable_greeting = false then
    send_stt_message cleanStt t ++ (send_tts_message notify s "stop" none).2
  else
    [OutEvent.startChat t]

/-- C9: on a `listen`/`detect` message whose normalised text is a configured
wakeword while `enable_greeting` is false, the first reply message is the
`stt` message carrying the wakeword text, the last is a `tts` message with
state `"stop"`, and the dialogue engine is never invoked (no `startChat`);
whenever the text is not a wakeword or greeting replies are enabled, the text
goes to `startToChat` instead.  `enable_greeting` defaults to true. -/
theorem wakeword_detect_spec (cleanDetect cleanStt : String → String)
    (notify : Bool) (s : SpeakSession) (cfg : DetectConfig) (text : String) :
    (cleanDetect text ∈ cfg.wakeup_words → cfg.enable_greeting = false →
      cleanStt (cleanDetect text) = cleanDetect text →
      (handleListenDetect cleanDetect cleanStt notify s cfg text).head?
          = some (OutEvent.sttMsg (cleanDetect text))
      ∧ (handleListenDetect cleanDetect cleanStt notify s cfg text).getLast?
          = some (OutEvent.ttsMsg "stop" none)
      ∧ ∀ t', OutEvent.startChat t'
          ∉ handleListenDetect cleanDetect cleanStt notify s cfg text)
    ∧ ((cleanDetect text ∉ cfg.wakeup_words ∨ cfg.enable_greeting = true) →
        handleListenDetect cleanDetect cleanStt notify s cfg text
          = [OutEvent.startChat (cleanDetect text)])
    ∧ enable_greeting_of_config none = true := by
  refine ⟨?_, ?_, rfl⟩
  · intro hwake hgreet hfix
    have hcond : cleanDetect text ∈ cfg.wakeup_words
        ∧ cfg.enable_greeting = false := ⟨hwake, hgreet⟩
    cases notify <;>
      simp [handleListenDetect, send_stt_message, send_tts_message,
        clearSpeakStatus, hcond, hfix]
  · intro hno
    have hcond : ¬(cleanDetect text ∈ cfg.wakeup_words
        ∧ cfg.enable_greeting = false) := by
      rcases hno with h | h
      · exact fun hc => h hc.1
      · exact fun hc => by
          rw [h] at hc
          cases hc.2
    simp [handleListenDetect, hcond]

/-- Witness for C9: the wakeword "小智" with greeting disabled on a concrete
configuration. -/
theorem wakeword_detect_spec_witness :
    (handleListenDetect id id false (SpeakSession.mk false 0 2 false false)
        (DetectConfig.mk ["小智", "你好小智"] false) "小智").head?
      = some (OutEvent.sttMsg "小智") :=
  ((wakeword_detect_spec id id false (SpeakSession.mk false 0 2 false false)
      (DetectConfig.mk ["小智", "你好小智"] false) "小智").1
    (by decide) rfl rfl).1

/-! ### WebRTC signalling: `webrtc/connection_manager.py`,
`handle_ice_candidate` (lines 727-856) and the pending-candidate drain at the
end of `handle_offer` (lines 677-683).  aiortc's `RTCPeerConnection` is
external; an "add" is recorded as an event.  Candidate payloads are taken in
the standard dict shape `{"candidate": str, "sdpMid": str,
"sdpMLineIndex": int}`. -/

/-- The fields extracted from `candidate_data` (lines 776-790). -/
structure CandidateData where
  candidate : String
  sdpMid : String
  sdpMLineIndex : Int
deriving DecidableEq, Repr

/-- The `RTCIceCandidate` constructed at lines 815-825 (`typ` is the `type`
keyword argument). -/
structure IceCandidateFields where
  foundation : String
  component : Int
  protocol : String
  priority : Int
  ip : String
  port : Int
  typ : String
  sdpMid : String
  sdpMLineIndex : Int
deriving DecidableEq, Repr

/-- Line 798-800: prepend `candidate:` when the string does not already
start with it. -/
def normalizeCandidate (c : String) : String :=
  if c.startsWith "candidate:" then c else "candidate:" ++ c

/-- What one non-buffered `handle_ice_candidate` call does with the
candidate: a parsed `pc.addIceCandidate`, the fallback
`pc._addRemoteIceCandidate` when the string has fewer than 10 fields, the
error path when `int()` raises (the code then merely re-triggers ICE
gathering), or the skip branch for an empty candidate string (line 849). -/
inductive IceAddOutcome
  | parsedAdd (c : IceCandidateFields)
  | fallbackAdd (candidate sdpMid : String) (sdpMLineIndex : Int)
  | intError
  | skippedEmpty
deriving DecidableEq, Repr

/-- Field extraction on the space-split parts (lines 802-825): with at least
10 parts and the `candidate:` label on the first, fields 0-7 become
foundation, component, protocol, priority, ip, port, (the literal `typ`
keyword at index 6 is skipped) and type; `int()` is `String.toInt?`. -/
def parseIceParts (sdpMid : String) (sdpMLineIndex : Int)
    (parts : List String) : IceAddOutcome :=
  if 10 ≤ parts.length ∧ (parts.headD "").startsWith "candidate:" then
    match (parts.getD 1 "").toInt?, (parts.getD 3 "").toInt?,
        (parts.getD 5 "").toInt? with
    | some comp, some prio, some port =>
        IceAddOutcome.parsedAdd
          ⟨(parts.headD "").replace "candidate:" "", comp, parts.getD 2 "",
           prio, parts.getD 4 "", port, parts.getD 7 "", sdpMid,
           sdpMLineIndex⟩
    | _, _, _ => IceAddOutcome.intError
  else
    IceAddOutcome.fallbackAdd
      (String.intercalate " " parts) sdpMid sdpMLineIndex

/-- The candidate-processing body of `handle_ice_candidate` once a peer
connection exists (lines 792-850): skip empty candidates, otherwise
normalise, split on spaces and parse. -/
def parseIceCandidate (cd : CandidateData) : IceAddOutcome :=
  if cd.candidate = "" then IceAddOutcome.skippedEmpty
  else
    parseIceParts cd.sdpMid cd.sdpMLineIndex
      ((normalizeCandidate cd.candidate).splitOn " ")

/-- `ConnectionManager` state relevant to candidate handling: which clients
have a `RTCPeerConnection` in `self.peer_connections`, and
`self.pending_candidates` as a per-client buffer. -/
structure ConnectionManagerState where
  peer_connections : List String
  pending_candidates : String → List CandidateData

/-- Observable signalling events. -/
inductive IceEvent
  | buffered (client : String) (cd : CandidateData)
  | add (client : String) (o : IceAddOutcome)
deriving DecidableEq, Repr

/-- `handle_ice_candidate` (lines 727-856): without a peer connection the
candidate is appended to the client's pending buffer (lines 739-744);
otherwise it is processed immediately. -/
def handle_ice_candidate (st : ConnectionManagerState) (client : String)
    (cd : CandidateData) : ConnectionManagerState × List IceEvent :=
  if client ∈ st.peer_connections then
    (st, [IceEvent.add client (parseIceCandidate cd)])
  else
    ({ st with pending_candidates := fun c =>
         if c = client then st.pending_candidates client ++ [cd]
         else st.pending_candidates c },
     [IceEvent.buffered client cd])

/-- `handle_offer` registers the freshly created peer connection in
`self.peer_connections[client_id]` before answering. -/
def registerPeerConnection (st : ConnectionManagerState) (client : String) :
    ConnectionManagerState :=
  if client ∈ st.peer_connections then st
  else { st with peer_connections := client :: st.peer_connections }

/-- The replay loop of lines 678-680: each pending candidate goes back
through `handle_ice_candidate`, in buffer order. -/
def processPendingLoop (client : String) :
    ConnectionManagerState → List CandidateData →
      ConnectionManagerState × List IceEvent
  | st, [] => (st, [])
  | st, cd :: rest =>
      let r := handle_ice_candidate st client cd
      let rr := processPendingLoop client r.1 rest
      (rr.1, r.2 ++ rr.2)

/-- The tail of `handle_offer` (lines 677-683): with the peer connection now
registered, replay every buffered candidate of this client in arrival order,
then `self.pending_candidates.pop(client_id, None)`. -/
def handle_offer_drain (st : ConnectionManagerState) (client : String) :
    ConnectionManagerState × List IceEvent :=
  let st0 := registerPeerConnection st client
  let r := processPendingLoop client st0 (st0.pending_candidates client)
  ({ r.1 with pending_candidates := fun c =>
       if c = client then [] else r.1.pending_candidates c },
   r.2)

theorem registerPeerConnection_mem (st : ConnectionManagerState)
    (client : String) :
    client ∈ (registerPeerConnection st client).peer_connections := by
  unfold registerPeerConnection
  split
  · assumption
  · exact List.mem_cons_self _ _

theorem registerPeerConnection_pending (st : ConnectionManagerState)
    (client : String) :
    (registerPeerConnection st client).pending_candidates
      = st.pending_candidates := by
  unfold registerPeerConnection
  split <;> rfl

theorem processPendingLoop_with_pc (client : String) :
    ∀ (pend : List CandidateData) (st : ConnectionManagerState),
      client ∈ st.peer_connections →
        processPendingLoop client st pend
          = (st, pend.map fun cd => IceEvent.add client (parseIceCandidate cd))
  | [], st, _ => rfl
  | cd :: rest, st, hpc => by
      rw [processPendingLoop]
      rw [handle_ice_candidate, if_pos hpc]
      rw [processPendingLoop_with_pc client rest st hpc]
      rfl

theorem parseIceParts_ne_skipped (mid : String) (idx : Int)
    (parts : List String) :
    parseIceParts mid idx parts ≠ IceAddOutcome.skippedEmpty := by
  unfold parseIceParts
  split
  · rcases (parts.getD 1 "").toInt? with _ | c1 <;>
      rcases (parts.getD 3 "").toInt? with _ | c3 <;>
        rcases (parts.getD 5 "").toInt? with _ | c5 <;> simp
  · simp

/-- C8 counterexample: the claim says every candidate buffered before the
peer connection exists is added to the peer connection after the offer.  But
an `ice_candidate` message whose candidate string is empty — the standard
end-of-gathering signal — is buffered, and on the drain it hits the
`else: logger.warning("空的ICE候选者")` branch (connection_manager.py line
849-850): no add of any kind reaches the peer connection. -/
theorem ice_empty_candidate_counterexample :
    (handle_ice_candidate (ConnectionManagerState.mk [] fun _ => [])
        "client-1" (CandidateData.mk "" "0" 0)).2
      = [IceEvent.buffered "client-1" (CandidateData.mk "" "0" 0)]
    ∧ (handle_offer_drain
        (handle_ice_candidate (ConnectionManagerState.mk [] fun _ => [])
          "client-1" (CandidateData.mk "" "0" 0)).1 "client-1").2
      = [IceEvent.add "client-1" IceAddOutcome.skippedEmpty] := by
  constructor
  · rfl
  · rfl

/-- C8 (amended): an `ice_candidate` arriving before the client's peer
connection exists is appended to that client's pending buffer (no other
client's buffer changes, nothing is added yet); after an offer is processed,
the buffered candidates are replayed through `handle_ice_candidate` in
arrival order and the client's pending buffer is cleared; a replayed
candidate with a non-empty candidate string never hits the silent-skip
branch (that branch is reserved for empty strings): it is parsed-added when
it has at least 10 fields with parseable integers, added through the
fallback API when it has fewer fields, and falls to the error path (which
only re-triggers ICE gathering) when an integer field fails to parse; and a
candidate string of the shape
`candidate:<foundation> <component> <proto> <priority> <ip> <port> typ
<type> ...` with at least 10 space-separated fields and parseable integer
fields is split into exactly those fields. -/
theorem ice_candidate_buffering_spec (st : ConnectionManagerState)
    (client : String) (cd : CandidateData)
    (hnopc : client ∉ st.peer_connections) :
    ((handle_ice_candidate st client cd).2 = [IceEvent.buffered client cd]
     ∧ (handle_ice_candidate st client cd).1.pending_candidates client
         = st.pending_candidates client ++ [cd]
     ∧ (∀ c, c ≠ client →
         (handle_ice_candidate st client cd).1.pending_candidates c
           = st.pending_candidates c))
    ∧ ((handle_offer_drain st client).2
        = (st.pending_candidates client).map
            (fun x => IceEvent.add client (parseIceCandidate x))
       ∧ (handle_offer_drain st client).1.pending_candidates client = [])
    ∧ (∀ x : CandidateData, x.candidate ≠ "" →
        parseIceCandidate x ≠ IceAddOutcome.skippedEmpty)
    ∧ (∀ (f c proto pr ip po ty : String) (rest : List String)
        (mid : String) (idx cv prv pov : Int),
        2 ≤ rest.length →
        ("candidate:" ++ f).startsWith "candidate:" = true →
        c.toInt? = some cv → pr.toInt? = some prv → po.toInt? = some pov →
        parseIceParts mid idx
            (("candidate:" ++ f) :: c :: proto :: pr :: ip :: po
              :: "typ" :: ty :: rest)
          = IceAddOutcome.parsedAdd
              ⟨("candidate:" ++ f).replace "candidate:" "", cv, proto, prv,
               ip, pov, ty, mid, idx⟩) := by
  refine ⟨⟨?_, ?_, ?_⟩, ⟨?_, ?_⟩, ?_, ?_⟩
  · rw [handle_ice_candidate, if_neg hnopc]
  · rw [handle_ice_candidate, if_neg hnopc]
    simp
  · intro c hc
    rw [handle_ice_candidate, if_neg hnopc]
    simp [hc]
  · unfold handle_offer_drain
    dsimp only
    rw [registerPeerConnection_pending,
      processPendingLoop_with_pc client _ _ (registerPeerConnection_mem st client)]
  · unfold handle_offer_drain
    dsimp only
    rw [registerPeerConnection_pending,
      processPendingLoop_with_pc client _ _ (registerPeerConnection_mem st client)]
    simp
  · intro x hx
    unfold parseIceCandidate
    rw [if_neg hx]
    exact parseIceParts_ne_skipped _ _ _
  · intro f c proto pr ip po ty rest mid idx cv prv pov hr hsw hc hpr hpo
    have hcond : 10 ≤ (("candidate:" ++ f) :: c :: proto :: pr :: ip :: po
        :: "typ" :: ty :: rest).length
        ∧ ((("candidate:" ++ f) :: c :: proto :: pr :: ip :: po
            :: "typ" :: ty :: rest).headD "").startsWith "candidate:" := by
      constructor
      · simp only [List.length_cons]
        omega
      · simpa using hsw
    unfold parseIceParts
    rw [if_pos hcond]
    simp only [List.getD_cons_succ, List.getD_cons_zero, List.headD_cons]
    rw [hc, hpr, hpo]

/-- Witness for C8 at a concrete host candidate buffered for a client with
no peer connection yet. -/
theorem ice_candidate_buffering_spec_witness :
    (handle_ice_candidate (ConnectionManagerState.mk [] fun _ => [])
        "client-1"
        (CandidateData.mk
          "candidate:1 1 udp 2122260223 192.168.1.7 54400 typ host generation 0"
          "0" 0)).2
      = [IceEvent.buffered "client-1"
          (CandidateData.mk
            "candidate:1 1 udp 2122260223 192.168.1.7 54400 typ host generation 0"
            "0" 0)] :=
  ((ice_candidate_buffering_spec (ConnectionManagerState.mk [] fun _ => [])
      "client-1"
      (CandidateData.mk
        "candidate:1 1 udp 2122260223 192.168.1.7 54400 typ host generation 0"
        "0" 0) (by decide)).1).1

end Xiaozhi
